import Mathlib

/-!
Shallow embedding of the RevyCode review-orchestration pipeline.

Embedded source files:
- backend/app/services/review_service.py   (ReviewService.trigger_review,
  ReviewService.post_review_to_github)
- backend/app/agents/pr_analyzer_agent.py  (PRAnalyzerAgent.analyze_files,
  PRAnalyzerAgent.summarize_review)
- backend/app/services/github_service.py   (GitHubService.get_pr_details,
  GitHubService.get_pr_files, method table)
- backend/app/models/review.py             (Review / AgentResult / AgentOutput /
  FileChange shapes)

Modelling conventions:
- Python dictionaries with string keys are association lists; indexing d[k]
  raises KeyError when the key is missing, d.get(k, default) never raises on a
  dict and raises AttributeError on a non-dict value.
- Dynamic Python/JSON values are the inductive PyVal.  json.loads is external
  (the json module); a capability response is modelled as its parse outcome:
  either the call raised, or the text failed to parse (json.JSONDecodeError),
  or it parsed to a PyVal.  Python dict literals parsed from JSON are treated
  as already key-deduplicated, matching dict semantics.
- Fallible Python code runs in Except PyErr; a bare try/except Exception block
  is the total match on that Except value.
- External effects (GitHub fetches, the LLM capability, the comment post, the
  document store) are oracle parameters; persistence calls are recorded as an
  event list.
- datetimes are abstract Nat timestamps; floating-point execution times are
  modelled as Nat durations (no claim depends on their arithmetic).
-/

/-- Python exception values distinguished by the embedded code paths. -/
inductive PyErr where
  | keyError (key : String)
  | attributeError (nm : String)
  | typeError (msg : String)
  | exception (msg : String)
deriving Repr, DecidableEq

/-- Dynamic Python/JSON value: None, bool, int, str, list, dict (string keys,
as produced by json.loads or built by the services), datetime. -/
inductive PyVal where
  | vnone
  | bool (b : Bool)
  | int (n : Int)
  | str (s : String)
  | list (l : List PyVal)
  | dict (l : List (String × PyVal))
  | dtime (t : Nat)

/-- Python truthiness of a value, as used by if-tests and the or-operator. -/
def PyVal.truthy : PyVal → Bool
  | .vnone => false
  | .bool b => b
  | .int n => decide (n ≠ 0)
  | .str s => !s.isEmpty
  | .list l => !l.isEmpty
  | .dict l => !l.isEmpty
  | .dtime _ => true

/-- Lookup in a string-keyed Python dict (association list, keys unique). -/
def slookup (k : String) : List (String × PyVal) → Option PyVal
  | [] => none
  | (k', v) :: rest => if k' = k then some v else slookup k rest

/-- Python d[k] on a dict: KeyError when absent. -/
def dictIndex (l : List (String × PyVal)) (k : String) : Except PyErr PyVal :=
  match slookup k l with
  | some v => .ok v
  | none => .error (.keyError k)

/-- Python v[k] on a dynamic value: KeyError when the dict lacks k, TypeError
when v is not a dict. -/
def pyIndexV (v : PyVal) (k : String) : Except PyErr PyVal :=
  match v with
  | .dict l => dictIndex l k
  | _ => .error (.typeError "value is not subscriptable by string")

/-- Python v.get(k, default): the method exists only on dicts (AttributeError
otherwise) and never raises on a dict. -/
def pyGetDefault (v : PyVal) (k : String) (d : PyVal) : Except PyErr PyVal :=
  match v with
  | .dict l => .ok ((slookup k l).getD d)
  | _ => .error (.attributeError "get")

/-- Python iteration (for x in v): lists yield elements, strings yield
one-character strings, dicts yield their keys; other values raise TypeError. -/
def iterElems : PyVal → Except PyErr (List PyVal)
  | .list l => .ok l
  | .str s => .ok (s.data.map (fun c => .str ⟨[c]⟩))
  | .dict l => .ok (l.map (fun p => .str p.1))
  | _ => .error (.typeError "object is not iterable")

/-- Python equality (==) restricted to hashable scalar values, as used for
dict keys of severity_counts and for comparisons against string literals.
Unhashable values (list/dict) never reach a key position (see issueStep), and
comparing them with a string literal yields False, which the catch-all case
models.  The Python quirk True == 1 is not modelled; no embedded comparison
mixes bool and int. -/
def keyEq : PyVal → PyVal → Bool
  | .vnone, .vnone => true
  | .bool a, .bool b => decide (a = b)
  | .int a, .int b => decide (a = b)
  | .str a, .str b => decide (a = b)
  | .dtime a, .dtime b => decide (a = b)
  | _, _ => false

/-- Values acceptable as Python dict keys (lists and dicts are unhashable). -/
def hashableKey : PyVal → Bool
  | .list _ => false
  | .dict _ => false
  | _ => true

/-- Python counts[key] = counts.get(key, 0) + 1 on an association list with
unique keys: increment the entry when present, append it otherwise. -/
def bump : List (PyVal × Nat) → PyVal → List (PyVal × Nat)
  | [], q => [(q, 1)]
  | (k, v) :: rest, q => if keyEq k q then (k, v + 1) :: rest else (k, v) :: bump rest q

/-- Python counts.get(key, 0) on the severity-counts dict. -/
def countsGet : List (PyVal × Nat) → PyVal → Nat
  | [], _ => 0
  | (k, v) :: rest, q => if keyEq k q then v else countsGet rest q

/-- Python string slice s[:n], which truncates to the first n characters. -/
def pySlice (s : String) (n : Nat) : String := ⟨s.data.take n⟩

/-- FileDiff entry as returned by GitHubService.get_pr_files (github_service.py
lines 59-76): every field below is always present in the appended dict; patch
is None for files without a textual diff. -/
structure FileDiff where
  filename : String
  status : String
  additions : Int
  deletions : Int
  changes : Int
  patch : Option String
  blob_url : String
  raw_url : String

/-- Truthiness of file.get("patch"): None and the empty string are falsy. -/
def patchTruthy : Option String → Bool
  | none => false
  | some s => !s.isEmpty

/-- Skip condition of pr_analyzer_agent.py line 38:
file.get("status") == "removed" or not file.get("patch"). -/
def skipB (f : FileDiff) : Bool :=
  f.status == "removed" || !patchTruthy f.patch

/-- Outcome of one Analysis Capability call (model.generate_content) for a
file, together with the json.loads parse of its (fence-stripped) text:
the call raised, or the text failed to parse, or it parsed to a value. -/
inductive CapOutcome where
  | raise (msg : String)
  | notJson
  | json (data : PyVal)

/-- Entry appended to results by analyze_files (pr_analyzer_agent.py lines
75-78): a dict with the filename and the raw parsed issues value. -/
structure FileResult where
  filename : String
  issues : PyVal

/-- Body of the per-file try block of analyze_files (lines 63-83) for one
capability outcome: returns the issues value to append, none when the file is
to yield nothing, or the uncaught exception.  A json.JSONDecodeError is caught
by the inner except (line 79) and yields none; data.get on a non-dict parse
raises AttributeError, which (like a capability error) escapes to the outer
except Exception of the loop. -/
def analyzeOne (o : CapOutcome) : Except PyErr (Option PyVal) :=
  match o with
  | .raise msg => .error (.exception msg)
  | .notJson => .ok none
  | .json data => do
      let issues ← pyGetDefault data "issues" .vnone
      if issues.truthy then .ok (some issues) else .ok none

/-- Aggregate state of PRAnalyzerAgent.analyze_files: the results list and the
filenames for which the Analysis Capability was invoked, in order. -/
structure AnalyzeResult where
  results : List FileResult
  invoked : List String

/-- Loop of PRAnalyzerAgent.analyze_files (lines 32-85).  cap is the trace of
capability outcomes indexed by invocation number, k the next invocation index.
Skipped files (removed status or absent/empty patch) consume no invocation;
for analyzed files the outer try/except Exception makes every per-file failure
fall through to the next file. -/
def analyze_files_go (cap : Nat → CapOutcome) : List FileDiff → Nat → AnalyzeResult
  | [], _ => ⟨[], []⟩
  | f :: fs, k =>
    if skipB f then analyze_files_go cap fs k
    else
      let rest := analyze_files_go cap fs (k + 1)
      match analyzeOne (cap k) with
      | .error _ => { rest with invoked := f.filename :: rest.invoked }
      | .ok none => { rest with invoked := f.filename :: rest.invoked }
      | .ok (some issues) => ⟨⟨f.filename, issues⟩ :: rest.results, f.filename :: rest.invoked⟩

/-- PRAnalyzerAgent.analyze_files over a full file list. -/
def analyze_files (cap : Nat → CapOutcome) (files : List FileDiff) : AnalyzeResult :=
  analyze_files_go cap files 0

/-- Outcome of the single summary capability call of summarize_review. -/
inductive SumOutcome where
  | raise (msg : String)
  | text (s : String)

/-- PRAnalyzerAgent.summarize_review (lines 87-104): on an empty results list
it returns the fixed message without touching the capability; otherwise it
makes exactly one capability call, degrading a raised error to an
error-description string.  The second component counts capability calls. -/
def summarize_review (o : SumOutcome) (results : List FileResult) : String × Nat :=
  if results.isEmpty then ("No major issues found in the analyzed files.", 0)
  else
    match o with
    | .text s => (s, 1)
    | .raise e => ("Error generating summary: " ++ e, 1)

/-- Flattened issue dict appended to all_issues by review_service.py lines
69-75: file, line, severity, category, message keep the raw dynamic values. -/
structure FlatIssue where
  file : String
  line : PyVal
  severity : PyVal
  category : PyVal
  message : PyVal

/-- Evaluation of the dict literal of review_service.py lines 69-75 for one
issue record: issue.get("line") first (AttributeError on a non-dict record),
then issue["severity"], issue["category"], issue["description"], each raising
KeyError when the record lacks the field. -/
def flattenIssue (fname : String) (e : PyVal) : Except PyErr FlatIssue := do
  let line ← pyGetDefault e "line" .vnone
  let sev ← pyIndexV e "severity"
  let cat ← pyIndexV e "category"
  let msg ← pyIndexV e "description"
  .ok { file := fname, line := line, severity := sev, category := cat, message := msg }

/-- Body of the inner loop of review_service.py lines 68-77 for one issue
record: append the flattened dict, then bump severity_counts at
issue.get("severity", "low"); an unhashable severity raises TypeError. -/
def issueStep (fname : String) (e : PyVal) (acc : List FlatIssue)
    (counts : List (PyVal × Nat)) : Except PyErr (List FlatIssue × List (PyVal × Nat)) := do
  let flat ← flattenIssue fname e
  let sev ← pyGetDefault e "severity" (.str "low")
  if hashableKey sev then
    .ok (acc ++ [flat], bump counts sev)
  else
    .error (.typeError "unhashable type")

/-- Inner loop of review_service.py lines 68-77 over the issue records of one
file result. -/
def issuesLoop (fname : String) : List PyVal → List FlatIssue → List (PyVal × Nat) →
    Except PyErr (List FlatIssue × List (PyVal × Nat))
  | [], acc, counts => .ok (acc, counts)
  | e :: rest, acc, counts => do
      let (acc', counts') ← issueStep fname e acc counts
      issuesLoop fname rest acc' counts'

/-- Outer loop of review_service.py lines 67-77: for each file result iterate
file_result.get("issues", []), a dynamic value whose iteration may raise. -/
def filesLoop : List FileResult → List FlatIssue → List (PyVal × Nat) →
    Except PyErr (List FlatIssue × List (PyVal × Nat))
  | [], acc, counts => .ok (acc, counts)
  | fr :: rest, acc, counts => do
      let elems ← iterElems fr.issues
      let (acc', counts') ← issuesLoop fr.filename elems acc counts
      filesLoop rest acc' counts'

/-- Initial severity_counts dict of review_service.py line 65. -/
def counts0 : List (PyVal × Nat) := [(.str "high", 0), (.str "medium", 0), (.str "low", 0)]

-- sanity checks of the dynamic-value primitives
example : slookup "b" [("a", .int 1), ("b", .int 2)] = some (.int 2) := rfl
example : pySlice "hello" 2 = "he" := rfl
example : (iterElems (.str "ab")) = .ok [.str "a", .str "b"] := rfl
example : bump counts0 (.str "high") = [(.str "high", 1), (.str "medium", 0), (.str "low", 0)] := rfl
example : countsGet (bump counts0 (.str "boom")) (.str "boom") = 1 := rfl

/-- AgentOutput as built by review_service.py lines 80-86 (model fields of
review.py lines 16-24 that the service populates). -/
structure AgentOutputM where
  summary : String
  code_quality_issues : List FlatIssue
  vulnerabilities : List FlatIssue
  recommendations : List String
  passed_checks : List String

/-- AgentResult as built by review_service.py lines 89-98. -/
structure AgentResultM where
  agent_name : String
  agent_version : String
  status : String
  started_at : Nat
  completed_at : Nat
  execution_time_ms : Nat
  output : AgentOutputM
  posted_to_github : Bool
  github_comment_id : Option PyVal

/-- FileChange snapshot as built by review_service.py lines 101-111. -/
structure FileChange where
  filename : String
  status : String
  additions : Int
  deletions : Int
  changes : Int
  patch_preview : Option String

/-- Review document as constructed by review_service.py lines 114-139.  The
PR-metadata fields hold the dynamic values read out of the pr_details dict;
repo and user references are external identities and are not modelled. -/
structure BuiltReview where
  pr_number : PyVal
  pr_title : PyVal
  pr_description : PyVal
  pr_url : PyVal
  pr_author : PyVal
  pr_branch : PyVal
  pr_base_branch : PyVal
  commit_sha : PyVal
  commit_message : PyVal
  files_changed : List FileChange
  total_additions : Int
  total_deletions : Int
  total_files_changed : Nat
  agent_results : List AgentResultM
  overall_status : String
  issues_found : Nat
  critical_issues : Nat
  high_issues : Nat
  medium_issues : Nat
  low_issues : Nat
  processing_time_total_ms : Nat
  completed_at : Nat

/-- Review construction of ReviewService.trigger_review, lines 63-139: parse
the workflow result (the issue-flattening loop and severity_counts tally),
build the AgentOutput/AgentResult, the FileChange list, then evaluate the
Review(...) keyword arguments in order, which re-indexes the pr_details dict
with the keys "number", "title", "body", "html_url", "user", "head", "base".
start_time and end_time are the two datetime.utcnow() readings around the
workflow call; the execution time is their difference in abstract units. -/
def build_review (pr_details : List (String × PyVal)) (pr_files : List FileDiff)
    (analysis_results : List FileResult) (final_review : String)
    (start_time end_time : Nat) : Except PyErr BuiltReview := do
  let (all_issues, severity_counts) ← filesLoop analysis_results [] counts0
  let execution_time := end_time - start_time
  let agent_output : AgentOutputM :=
    { summary := pySlice final_review 500
      code_quality_issues := all_issues
      vulnerabilities := all_issues.filter (fun i => keyEq i.category (.str "security"))
      recommendations := ["Review all identified issues before merging"]
      passed_checks := [] }
  let agent_result : AgentResultM :=
    { agent_name := "pr_analyzer"
      agent_version := "1.0.0"
      status := "completed"
      started_at := start_time
      completed_at := end_time
      execution_time_ms := execution_time
      output := agent_output
      posted_to_github := false
      github_comment_id := none }
  let file_changes : List FileChange := pr_files.map (fun f =>
    { filename := f.filename
      status := f.status
      additions := f.additions
      deletions := f.deletions
      changes := f.changes
      patch_preview :=
        match f.patch with
        | some p => if p.isEmpty then none else some (pySlice p 200)
        | none => none })
  let pn ← dictIndex pr_details "number"
  let pt ← dictIndex pr_details "title"
  let pb ← dictIndex pr_details "body"
  let pu ← dictIndex pr_details "html_url"
  let pa ← dictIndex pr_details "user"
  let hd1 ← dictIndex pr_details "head"
  let hr ← pyIndexV hd1 "ref"
  let bs1 ← dictIndex pr_details "base"
  let br ← pyIndexV bs1 "ref"
  let hd2 ← dictIndex pr_details "head"
  let hs ← pyIndexV hd2 "sha"
  let cm ← dictIndex pr_details "title"
  .ok
    { pr_number := pn
      pr_title := pt
      pr_description := if pb.truthy then pb else .str ""
      pr_url := pu
      pr_author := pa
      pr_branch := hr
      pr_base_branch := br
      commit_sha := hs
      commit_message := cm
      files_changed := file_changes
      total_additions := (pr_files.map (fun f => f.additions)).sum
      total_deletions := (pr_files.map (fun f => f.deletions)).sum
      total_files_changed := pr_files.length
      agent_results := [agent_result]
      overall_status := "completed"
      issues_found := all_issues.length
      critical_issues := (all_issues.filter (fun i =>
        keyEq i.severity (.str "high") && keyEq i.category (.str "security"))).length
      high_issues := countsGet severity_counts (.str "high")
      medium_issues := countsGet severity_counts (.str "medium")
      low_issues := countsGet severity_counts (.str "low")
      processing_time_total_ms := execution_time
      completed_at := end_time }

/-- Upstream pull-request data consumed by GitHubService.get_pr_details. -/
structure PRMeta where
  number : Int
  title : String
  body : Option String
  html_url : String
  user_login : String
  head_ref : String
  base_ref : String
  head_sha : String
  state : String
  created_at : Nat
  updated_at : Nat

/-- Outcome of one GitHub API fetch: success, or a GithubException (the only
failure mode the service wraps). -/
inductive FetchOutcome (α : Type) where
  | ok (a : α)
  | githubErr (msg : String)

/-- Dict returned by GitHubService.get_pr_details on success (github_service.py
lines 31-44): note the keys are pr_number, pr_title, pr_description, pr_url,
pr_author, pr_branch, pr_base_branch, commit_sha, commit_message, state,
created_at, updated_at. -/
def get_pr_details_ret (pr : PRMeta) : List (String × PyVal) :=
  [("pr_number", .int pr.number),
   ("pr_title", .str pr.title),
   ("pr_description", .str (pr.body.getD "")),
   ("pr_url", .str pr.html_url),
   ("pr_author", .str pr.user_login),
   ("pr_branch", .str pr.head_ref),
   ("pr_base_branch", .str pr.base_ref),
   ("commit_sha", .str pr.head_sha),
   ("commit_message", .str pr.title),
   ("state", .str pr.state),
   ("created_at", .dtime pr.created_at),
   ("updated_at", .dtime pr.updated_at)]

/-- GitHubService.get_pr_details (lines 16-46): wraps a GithubException into a
generic Exception with the message prefix below. -/
def get_pr_details (o : FetchOutcome PRMeta) : Except PyErr (List (String × PyVal)) :=
  match o with
  | .ok pr => .ok (get_pr_details_ret pr)
  | .githubErr e => .error (.exception ("Failed to fetch PR details: " ++ e))

/-- GitHubService.get_pr_files (lines 48-78): returns the FileDiff dicts or
wraps a GithubException. -/
def get_pr_files (o : FetchOutcome (List FileDiff)) : Except PyErr (List FileDiff) :=
  match o with
  | .ok fs => .ok fs
  | .githubErr e => .error (.exception ("Failed to fetch PR files: " ++ e))

/-- Names of the methods defined on GitHubService (github_service.py). -/
def gitHubServiceMethods : List String :=
  ["get_pr_details", "get_pr_files", "post_review_comment",
   "post_inline_comment", "get_repository_info"]

/-- Outcome of a successful-or-raising comment-post call, were one made. -/
inductive PostOutcome where
  | ok (result : PyVal)
  | raise (msg : String)

/-- Persistence calls made against the Review store, in order. -/
inductive StoreEvent where
  | insert (r : BuiltReview)
  | save (r : BuiltReview)

/-- ReviewService.post_review_to_github (review_service.py lines 150-176).
Line 163 evaluates the attribute github_service.post_comment inside the try
block; GitHubService defines no such method (its method table is
gitHubServiceMethods), so the lookup raises AttributeError before any network
call, and the except Exception at line 175 swallows it.  The success branch
(lines 169-173, guarded on a nonempty agent_results list: set
posted_to_github, record the result, one save) is kept for fidelity but is
unreachable. -/
def post_review_to_github (postO : PostOutcome) (review : BuiltReview) :
    BuiltReview × List StoreEvent :=
  let attempt : Except PyErr (BuiltReview × List StoreEvent) :=
    if "post_comment" ∈ gitHubServiceMethods then
      match postO with
      | .raise m => .error (.exception ("Failed to post comment: " ++ m))
      | .ok result =>
          match review.agent_results with
          | [] => .ok (review, [])
          | a :: rest =>
              let r' := { review with agent_results :=
                { a with posted_to_github := true, github_comment_id := some result } :: rest }
              .ok (r', [.save r'])
    else .error (.attributeError "post_comment")
  match attempt with
  | .ok res => res
  | .error _ => (review, [])

/-- ReviewService.trigger_review (review_service.py lines 15-148), run against
oracle outcomes for the two fetches, the per-file capability trace, the
summary capability call and the comment post.  After the two fetches it builds
the pr_details argument dict for agent.analyze (lines 47-56), whose entries
index the pr_details dict with the keys "number", "title", "body", "user",
"head", "base" in literal order; it then runs the two-stage workflow, builds
and inserts the Review, and optionally posts back.  The second component
records persistence calls. -/
def trigger_review_body (fD : FetchOutcome PRMeta) (fF : FetchOutcome (List FileDiff))
    (cap : Nat → CapOutcome) (sumO : SumOutcome) (postO : PostOutcome)
    (post_to_github : Bool) (start_time end_time : Nat) :
    Except PyErr (BuiltReview × List StoreEvent) := do
  let pr_details ← get_pr_details fD
  let pr_files ← get_pr_files fF
  let _n ← dictIndex pr_details "number"
  let _t ← dictIndex pr_details "title"
  let _d ← dictIndex pr_details "body"
  let _a ← dictIndex pr_details "user"
  let h1 ← dictIndex pr_details "head"
  let _hr ← pyIndexV h1 "ref"
  let b1 ← dictIndex pr_details "base"
  let _br ← pyIndexV b1 "ref"
  let h2 ← dictIndex pr_details "head"
  let _hs ← pyIndexV h2 "sha"
  let _cm ← dictIndex pr_details "title"
  let ar := analyze_files cap pr_files
  let final_review := (summarize_review sumO ar.results).1
  let review ← build_review pr_details pr_files ar.results final_review start_time end_time
  if post_to_github then
    let (review', evs) := post_review_to_github postO review
    .ok (review', StoreEvent.insert review :: evs)
  else
    .ok (review, [StoreEvent.insert review])

/-- Result of trigger_review for the caller plus the recorded store calls. -/
def trigger_review (fD : FetchOutcome PRMeta) (fF : FetchOutcome (List FileDiff))
    (cap : Nat → CapOutcome) (sumO : SumOutcome) (postO : PostOutcome)
    (post_to_github : Bool) (start_time end_time : Nat) :
    Except PyErr BuiltReview × List StoreEvent :=
  match trigger_review_body fD fF cap sumO postO post_to_github start_time end_time with
  | .error e => (.error e, [])
  | .ok (r, evs) => (.ok r, evs)

/-- Capability outcomes for which the per-file analysis appends nothing: the
call raised, the text was not JSON, or the parsed value is not a dict, lacks
the issues key, or maps it to a falsy value. -/
def capYieldsNothing : CapOutcome → Bool
  | .raise _ => true
  | .notJson => true
  | .json d =>
      match d with
      | .dict l => !((slookup "issues" l).getD .vnone).truthy
      | _ => true

/-- Deletion of position m from a capability trace: outcomes after m shift
down by one. -/
def dropNth (m : Nat) (cap : Nat → CapOutcome) : Nat → CapOutcome :=
  fun n => if n < m then cap n else cap (n + 1)

/-- Number of entries of a FileDiff list that the per-file analyzer does not
skip, which is the number of capability invocations the list consumes. -/
def nonSkippedCount (l : List FileDiff) : Nat :=
  (l.filter (fun x => !skipB x)).length

/-- Fallback Review value used to read the payload out of a concrete
successful build_review computation in closed statements. -/
def dummyReview : BuiltReview :=
  { pr_number := .vnone, pr_title := .vnone, pr_description := .vnone,
    pr_url := .vnone, pr_author := .vnone, pr_branch := .vnone,
    pr_base_branch := .vnone, commit_sha := .vnone, commit_message := .vnone,
    files_changed := [], total_additions := 0, total_deletions := 0,
    total_files_changed := 0, agent_results := [], overall_status := "",
    issues_found := 0, critical_issues := 0, high_issues := 0,
    medium_issues := 0, low_issues := 0, processing_time_total_ms := 0,
    completed_at := 0 }

/-- Payload of a successful Except computation, with a fallback. -/
def okOr (d : BuiltReview) : Except PyErr BuiltReview → BuiltReview
  | .ok r => r
  | .error _ => d

/-- Well-keyed pr_details dict used to exercise build_review in closed
statements (the keys trigger_review actually indexes). -/
def pdSample : List (String × PyVal) :=
  [("number", .int 7), ("title", .str "t"), ("body", .str "b"),
   ("html_url", .str "u"), ("user", .str "octocat"),
   ("head", .dict [("ref", .str "feature"), ("sha", .str "abc")]),
   ("base", .dict [("ref", .str "main")])]

/-- Analysis results containing one issue whose severity is outside
low/medium/high, a value the free-text capability can produce (the prompt asks
for low|medium|high but nothing validates the parsed records). -/
def c2rs : List FileResult :=
  [⟨"app.py", .list [.dict [("line", .int 3), ("severity", .str "critical"),
    ("category", .str "security"), ("description", .str "hardcoded secret")]]⟩]

/-- Review built from c2rs. -/
def c2review : BuiltReview := okOr dummyReview (build_review pdSample [] c2rs "s" 0 1)

/-- Analysis results with a single well-formed low-severity issue. -/
def c2okrs : List FileResult :=
  [⟨"app.py", .list [.dict [("line", .int 2), ("severity", .str "low"),
    ("category", .str "style"), ("description", .str "nit")]]⟩]

/-- Review built from c2okrs. -/
def c2wreview : BuiltReview := okOr dummyReview (build_review pdSample [] c2okrs "s" 0 1)

/-- Analysis results with a single high-severity security issue. -/
def c3rs : List FileResult :=
  [⟨"auth.py", .list [.dict [("line", .int 10), ("severity", .str "high"),
    ("category", .str "security"), ("description", .str "injection")]]⟩]

/-- Review built from c3rs. -/
def c3review : BuiltReview := okOr dummyReview (build_review pdSample [] c3rs "s" 0 1)

/-- FileDiff for a removed file. -/
def c4file : FileDiff :=
  { filename := "gone.py", status := "removed", additions := 0, deletions := 3,
    changes := 3, patch := none, blob_url := "b", raw_url := "r" }

/-- Constant capability trace used with c4file. -/
def c4cap : Nat → CapOutcome := fun _ => .raise "boom"

/-- Modified file whose first capability response is not JSON. -/
def c5bad : FileDiff :=
  { filename := "bad.py", status := "modified", additions := 1, deletions := 0,
    changes := 1, patch := some "@@ -1 +1 @@", blob_url := "b", raw_url := "r" }

/-- Modified file whose capability response parses to one issue. -/
def c5good : FileDiff :=
  { filename := "ok.py", status := "modified", additions := 2, deletions := 1,
    changes := 3, patch := some "@@ -2 +2 @@", blob_url := "b", raw_url := "r" }

/-- Capability trace: first invocation returns non-JSON text, later
invocations return a well-formed single-issue payload. -/
def c5cap : Nat → CapOutcome := fun n =>
  if n = 0 then .notJson
  else .json (.dict [("issues", .list [.dict [("line", .int 1),
    ("severity", .str "low"), ("category", .str "bug"),
    ("description", .str "d")]])])

/-- Analysis results whose single issue record has only a line field. -/
def c6rs : List FileResult := [⟨"app.py", .list [.dict [("line", .int 1)]]⟩]

/-- Analysis results whose single issue record lacks the severity field. -/
def c6wrs : List FileResult := [⟨"b.py", .list [.dict [("category", .str "bug")]]⟩]

/-- Analysis results whose single issue record lacks the category field. -/
def c6mcat : List FileResult :=
  [⟨"c.py", .list [.dict [("line", .int 1), ("severity", .str "low"),
    ("description", .str "d")]]⟩]

/-- Analysis results whose single issue record lacks the description field. -/
def c6mdesc : List FileResult :=
  [⟨"d.py", .list [.dict [("severity", .str "low"), ("category", .str "bug")]]⟩]

/-- Analysis results whose single well-formed issue record carries the
out-of-range severity "critical". -/
def c6outrs : List FileResult :=
  [⟨"e.py", .list [.dict [("line", .int 9), ("severity", .str "critical"),
    ("category", .str "bug"), ("description", .str "x")]]⟩]

/-- Review built from c6outrs. -/
def c6outreview : BuiltReview := okOr dummyReview (build_review pdSample [] c6outrs "s" 0 1)

/-- Review built from an empty analysis result with a short narrative. -/
def c10review : BuiltReview := okOr dummyReview (build_review pdSample [] [] "short" 0 1)

/-! Support lemmas -/

theorem exbind_ok {α β : Type} (a : α) (f : α → Except PyErr β) :
    (Except.ok a >>= f) = f a := rfl

theorem exbind_err {α β : Type} (e : PyErr) (f : α → Except PyErr β) :
    ((Except.error e : Except PyErr α) >>= f) = .error e := rfl

theorem keyEq_symm (a b : PyVal) : keyEq a b = keyEq b a := by
  cases a <;> cases b <;> simp [keyEq, decide_eq_decide] <;> exact eq_comm

theorem keyEq_trans {a b c : PyVal} (h1 : keyEq a b = true) (h2 : keyEq b c = true) :
    keyEq a c = true := by
  cases a <;> cases b <;> cases c <;> simp_all [keyEq]

theorem countsGet_bump (c : List (PyVal × Nat)) (q p : PyVal) :
    countsGet (bump c q) p = countsGet c p + (if keyEq p q then 1 else 0) := by
  induction c with
  | nil =>
      simp only [bump, countsGet]
      rw [keyEq_symm]
      omega
  | cons kv rest ih =>
      obtain ⟨k, v⟩ := kv
      by_cases h1 : keyEq k q = true
      · simp only [bump, h1, if_true, countsGet]
        by_cases h2 : keyEq k p = true
        · have hpq : keyEq p q = true :=
            keyEq_trans (show keyEq p k = true by rw [keyEq_symm]; exact h2) h1
          simp [h2, hpq]
        · have hpq : keyEq p q = false := by
            by_contra hc
            have hpq' : keyEq p q = true := by
              cases hq : keyEq p q
              · exact absurd hq hc
              · rfl
            have : keyEq k p = true :=
              keyEq_trans h1 (show keyEq q p = true by rw [keyEq_symm]; exact hpq')
            simp [this] at h2
          simp [h2, hpq]
      · have h1' : keyEq k q = false := by
          cases hq : keyEq k q
          · rfl
          · exact absurd hq h1
        simp only [bump, h1', Bool.false_eq_true, if_false, countsGet]
        by_cases h2 : keyEq k p = true
        · have hpq : keyEq p q = false := by
            by_contra hc
            have hpq' : keyEq p q = true := by
              cases hq : keyEq p q
              · exact absurd hq hc
              · rfl
            have : keyEq k q = true :=
              keyEq_trans h2 hpq'
            simp [this] at h1
          simp [h2, hpq]
        · simp [h2, ih]

theorem flattenIssue_ok {fname : String} {e : PyVal} {flat : FlatIssue}
    (h : flattenIssue fname e = .ok flat) :
    ∃ d, e = .dict d ∧ slookup "severity" d = some flat.severity := by
  cases e <;>
    simp only [flattenIssue, pyGetDefault, pyIndexV, dictIndex, exbind_ok, exbind_err] at h
  case vnone => exact absurd h (by simp)
  case bool b => exact absurd h (by simp)
  case int n => exact absurd h (by simp)
  case str s => exact absurd h (by simp)
  case list l => exact absurd h (by simp)
  case dtime t => exact absurd h (by simp)
  case dict d =>
    refine ⟨d, rfl, ?_⟩
    cases h1 : slookup "severity" d with
    | none => rw [h1] at h; simp [exbind_err] at h
    | some sv =>
        rw [h1] at h
        rw [exbind_ok] at h
        cases h2 : slookup "category" d with
        | none => rw [h2] at h; simp [exbind_err] at h
        | some cv =>
            rw [h2] at h
            rw [exbind_ok] at h
            cases h3 : slookup "description" d with
            | none => rw [h3] at h; simp [exbind_err] at h
            | some dv =>
                rw [h3] at h
                rw [exbind_ok] at h
                simp only [Except.ok.injEq] at h
                rw [← h]

theorem issueStep_ok {fname : String} {e : PyVal} {acc : List FlatIssue}
    {counts : List (PyVal × Nat)} {acc' : List FlatIssue} {counts' : List (PyVal × Nat)}
    (h : issueStep fname e acc counts = .ok (acc', counts')) :
    ∃ flat, flattenIssue fname e = .ok flat ∧ acc' = acc ++ [flat] ∧
      counts' = bump counts flat.severity := by
  unfold issueStep at h
  cases hf : flattenIssue fname e with
  | error er => rw [hf] at h; simp [exbind_err] at h
  | ok flat =>
      rw [hf] at h
      rw [exbind_ok] at h
      obtain ⟨d, rfl, hsev⟩ := flattenIssue_ok hf
      simp only [pyGetDefault, hsev, Option.getD, exbind_ok] at h
      split at h
      · simp only [Except.ok.injEq, Prod.mk.injEq] at h
        exact ⟨flat, rfl, h.1.symm, h.2.symm⟩
      · simp at h

theorem issuesLoop_ok {fname : String} :
    ∀ (es : List PyVal) (acc : List FlatIssue) (counts : List (PyVal × Nat))
      {acc' : List FlatIssue} {counts' : List (PyVal × Nat)},
      issuesLoop fname es acc counts = .ok (acc', counts') →
      ∃ delta, acc' = acc ++ delta ∧
        ∀ p, countsGet counts' p =
          countsGet counts p + (delta.filter (fun i => keyEq i.severity p)).length := by
  intro es
  induction es with
  | nil =>
      intro acc counts acc' counts' h
      simp only [issuesLoop, Except.ok.injEq, Prod.mk.injEq] at h
      exact ⟨[], by simp [← h.1], fun p => by simp [← h.2]⟩
  | cons e rest ih =>
      intro acc counts acc' counts' h
      simp only [issuesLoop] at h
      cases hs : issueStep fname e acc counts with
      | error er => rw [hs] at h; simp [exbind_err] at h
      | ok ac =>
          obtain ⟨acc1, counts1⟩ := ac
          rw [hs] at h
          rw [exbind_ok] at h
          obtain ⟨flat, hflat, hacc1, hcounts1⟩ := issueStep_ok hs
          obtain ⟨d2, hacc', hcnt⟩ := ih acc1 counts1 h
          refine ⟨flat :: d2, ?_, ?_⟩
          · subst hacc1; simp [hacc']
          · intro p
            subst hacc1
            subst hcounts1
            rw [hcnt p, countsGet_bump]
            rw [keyEq_symm p flat.severity]
            by_cases hk : keyEq flat.severity p = true
            all_goals simp [List.filter_cons, hk]
            all_goals omega

theorem filesLoop_ok :
    ∀ (rs : List FileResult) (acc : List FlatIssue) (counts : List (PyVal × Nat))
      {acc' : List FlatIssue} {counts' : List (PyVal × Nat)},
      filesLoop rs acc counts = .ok (acc', counts') →
      ∃ delta, acc' = acc ++ delta ∧
        ∀ p, countsGet counts' p =
          countsGet counts p + (delta.filter (fun i => keyEq i.severity p)).length := by
  intro rs
  induction rs with
  | nil =>
      intro acc counts acc' counts' h
      simp only [filesLoop, Except.ok.injEq, Prod.mk.injEq] at h
      exact ⟨[], by simp [← h.1], fun p => by simp [← h.2]⟩
  | cons fr rest ih =>
      intro acc counts acc' counts' h
      simp only [filesLoop] at h
      cases he : iterElems fr.issues with
      | error er => rw [he] at h; simp [exbind_err] at h
      | ok elems =>
          rw [he] at h
          rw [exbind_ok] at h
          cases hl : issuesLoop fr.filename elems acc counts with
          | error er => rw [hl] at h; simp [exbind_err] at h
          | ok ac =>
              obtain ⟨acc1, counts1⟩ := ac
              rw [hl] at h
              rw [exbind_ok] at h
              obtain ⟨d1, hacc1, hcnt1⟩ := issuesLoop_ok elems acc counts hl
              obtain ⟨d2, hacc', hcnt2⟩ := ih acc1 counts1 h
              refine ⟨d1 ++ d2, ?_, ?_⟩
              · subst hacc1; simp [hacc']
              · intro p
                rw [hcnt2 p, hcnt1 p]
                simp [List.filter_append]
                omega

theorem exbind_ok_inv {α β : Type} {x : Except PyErr α} {f : α → Except PyErr β} {b : β}
    (h : (x >>= f) = .ok b) : ∃ a, x = .ok a ∧ f a = .ok b := by
  cases x with
  | error e => rw [exbind_err] at h; exact absurd h (by simp)
  | ok a => exact ⟨a, rfl, h⟩

theorem filter_severity_partition (l : List FlatIssue)
    (h : ∀ i ∈ l, i.severity = .str "low" ∨ i.severity = .str "medium" ∨
      i.severity = .str "high") :
    (l.filter (fun i => keyEq i.severity (.str "high"))).length
      + (l.filter (fun i => keyEq i.severity (.str "medium"))).length
      + (l.filter (fun i => keyEq i.severity (.str "low"))).length = l.length := by
  induction l with
  | nil => simp
  | cons i rest ih =>
      have hrest := ih (fun j hj => h j (by simp [hj]))
      have hi := h i (by simp)
      have e1 : keyEq (PyVal.str "low") (PyVal.str "high") = false := by decide
      have e2 : keyEq (PyVal.str "low") (PyVal.str "medium") = false := by decide
      have e3 : keyEq (PyVal.str "low") (PyVal.str "low") = true := by decide
      have e4 : keyEq (PyVal.str "medium") (PyVal.str "high") = false := by decide
      have e5 : keyEq (PyVal.str "medium") (PyVal.str "medium") = true := by decide
      have e6 : keyEq (PyVal.str "medium") (PyVal.str "low") = false := by decide
      have e7 : keyEq (PyVal.str "high") (PyVal.str "high") = true := by decide
      have e8 : keyEq (PyVal.str "high") (PyVal.str "medium") = false := by decide
      have e9 : keyEq (PyVal.str "high") (PyVal.str "low") = false := by decide
      rcases hi with hs | hs | hs <;>
        simp [List.filter_cons, hs, e1, e2, e3, e4, e5, e6, e7, e8, e9] <;>
        omega

theorem length_filter_and_le (l : List FlatIssue) (p q : FlatIssue → Bool) :
    (l.filter (fun i => p i && q i)).length ≤ (l.filter p).length := by
  induction l with
  | nil => simp
  | cons i rest ih =>
      by_cases hp : p i = true <;> by_cases hq : q i = true <;>
        simp [List.filter_cons, hp, hq] <;> omega

theorem build_review_ok {pd : List (String × PyVal)} {pr_files : List FileDiff}
    {rs : List FileResult} {fr : String} {t1 t2 : Nat} {r : BuiltReview}
    (h : build_review pd pr_files rs fr t1 t2 = .ok r) :
    ∃ all counts, filesLoop rs [] counts0 = .ok (all, counts)
      ∧ r.issues_found = all.length
      ∧ r.high_issues = countsGet counts (.str "high")
      ∧ r.medium_issues = countsGet counts (.str "medium")
      ∧ r.low_issues = countsGet counts (.str "low")
      ∧ r.critical_issues = (all.filter (fun i =>
          keyEq i.severity (.str "high") && keyEq i.category (.str "security"))).length
      ∧ r.overall_status = "completed"
      ∧ r.completed_at = t2
      ∧ ∃ a, r.agent_results = [a] ∧ a.output.code_quality_issues = all
          ∧ a.output.summary = pySlice fr 500
          ∧ a.output.vulnerabilities =
              all.filter (fun i => keyEq i.category (.str "security"))
          ∧ a.posted_to_github = false := by
  unfold build_review at h
  cases hl : filesLoop rs [] counts0 with
  | error e => rw [hl] at h; rw [exbind_err] at h; exact absurd h (by simp)
  | ok ac =>
    obtain ⟨all, counts⟩ := ac
    rw [hl] at h
    rw [exbind_ok] at h
    obtain ⟨pn, hk1, h⟩ := exbind_ok_inv h
    obtain ⟨pt, hk2, h⟩ := exbind_ok_inv h
    obtain ⟨pb, hk3, h⟩ := exbind_ok_inv h
    obtain ⟨pu, hk4, h⟩ := exbind_ok_inv h
    obtain ⟨pa, hk5, h⟩ := exbind_ok_inv h
    obtain ⟨hd1, hk6, h⟩ := exbind_ok_inv h
    obtain ⟨hr, hk7, h⟩ := exbind_ok_inv h
    obtain ⟨bs1, hk8, h⟩ := exbind_ok_inv h
    obtain ⟨br, hk9, h⟩ := exbind_ok_inv h
    obtain ⟨hd2, hk10, h⟩ := exbind_ok_inv h
    obtain ⟨hs, hk11, h⟩ := exbind_ok_inv h
    obtain ⟨cm, hk12, h⟩ := exbind_ok_inv h
    simp only [Except.ok.injEq] at h
    subst h
    exact ⟨all, counts, rfl, rfl, rfl, rfl, rfl, rfl, rfl, rfl, _, rfl, rfl, rfl, rfl, rfl⟩

theorem analyzeOne_nothing {o : CapOutcome} (h : capYieldsNothing o = true) :
    (∃ e, analyzeOne o = .error e) ∨ analyzeOne o = .ok none := by
  cases o with
  | raise m => exact .inl ⟨_, rfl⟩
  | notJson => exact .inr rfl
  | json d =>
      cases d with
      | dict l =>
          right
          have h' : ((slookup "issues" l).getD .vnone).truthy = false := by
            simpa [capYieldsNothing] using h
          simp [analyzeOne, pyGetDefault, exbind_ok, h']
      | vnone => exact .inl ⟨_, rfl⟩
      | bool b => exact .inl ⟨_, rfl⟩
      | int n => exact .inl ⟨_, rfl⟩
      | str s => exact .inl ⟨_, rfl⟩
      | list l => exact .inl ⟨_, rfl⟩
      | dtime t => exact .inl ⟨_, rfl⟩

theorem analyze_files_go_skip {f : FileDiff} (hf : skipB f = true) (cap : Nat → CapOutcome) :
    ∀ (l1 l2 : List FileDiff) (k : Nat),
      analyze_files_go cap (l1 ++ f :: l2) k = analyze_files_go cap (l1 ++ l2) k := by
  intro l1
  induction l1 with
  | nil => intro l2 k; simp [analyze_files_go, hf]
  | cons g rest ih =>
      intro l2 k
      simp only [List.cons_append, analyze_files_go]
      by_cases hg : skipB g = true
      · simp only [hg, if_true]
        exact ih l2 k
      · simp only [hg, Bool.false_eq_true, if_false]
        have h2 : analyze_files_go cap (List.append rest (f :: l2)) (k + 1) =
            analyze_files_go cap (List.append rest l2) (k + 1) := ih l2 (k + 1)
        rw [h2]

theorem analyze_files_go_dropNth_ge (cap : Nat → CapOutcome) (m : Nat) :
    ∀ (l : List FileDiff) (j : Nat), m ≤ j →
      analyze_files_go (dropNth m cap) l j = analyze_files_go cap l (j + 1) := by
  intro l
  induction l with
  | nil => intro j hj; rfl
  | cons g rest ih =>
      intro j hj
      simp only [analyze_files_go]
      by_cases hg : skipB g = true
      · simp only [hg, if_true]
        exact ih j hj
      · have hnth : dropNth m cap j = cap (j + 1) := by
          simp only [dropNth]
          rw [if_neg (by omega)]
        simp only [hg, Bool.false_eq_true, if_false]
        rw [hnth, ih (j + 1) (by omega)]

theorem analyze_files_go_isolate {f : FileDiff} (hf : skipB f = false)
    (cap : Nat → CapOutcome) (l2 : List FileDiff) :
    ∀ (l1 : List FileDiff) (k : Nat),
      capYieldsNothing (cap (k + nonSkippedCount l1)) = true →
      (analyze_files_go cap (l1 ++ f :: l2) k).results =
        (analyze_files_go (dropNth (k + nonSkippedCount l1) cap) (l1 ++ l2) k).results := by
  intro l1
  induction l1 with
  | nil =>
      intro k hbad
      simp only [nonSkippedCount, List.filter_nil, List.length_nil, Nat.add_zero] at hbad ⊢
      have hshift := analyze_files_go_dropNth_ge cap k l2 k (Nat.le_refl k)
      simp only [List.nil_append, analyze_files_go, hf, Bool.false_eq_true, if_false]
      rw [hshift]
      rcases analyzeOne_nothing hbad with ⟨e, he⟩ | he <;> rw [he]
  | cons g rest ih =>
      intro k hbad
      by_cases hg : skipB g = true
      · have hc : nonSkippedCount (g :: rest) = nonSkippedCount rest := by
          simp [nonSkippedCount, List.filter_cons, hg]
        rw [hc] at hbad ⊢
        simp only [List.cons_append, analyze_files_go, hg, if_true]
        exact ih k hbad
      · have hc : nonSkippedCount (g :: rest) = nonSkippedCount rest + 1 := by
          simp [nonSkippedCount, List.filter_cons, hg]
        have hidx : k + nonSkippedCount (g :: rest) = (k + 1) + nonSkippedCount rest := by
          rw [hc]; omega
        rw [hidx] at hbad ⊢
        have hck : dropNth ((k + 1) + nonSkippedCount rest) cap k = cap k := by
          simp only [dropNth]
          rw [if_pos (by omega)]
        have hih := ih (k + 1) hbad
        simp only [List.cons_append, analyze_files_go, hg, Bool.false_eq_true, if_false, hck]
        cases ha : analyzeOne (cap k) with
        | error e => simp [ha, hih]
        | ok v =>
            cases v with
            | none => simp [ha, hih]
            | some iss => simp [ha, hih]

theorem flattenIssue_missing_severity {fname : String} {d : List (String × PyVal)}
    (h : slookup "severity" d = none) :
    flattenIssue fname (.dict d) = .error (.keyError "severity") := by
  simp [flattenIssue, pyGetDefault, exbind_ok, pyIndexV, dictIndex, h, exbind_err]

theorem flattenIssue_missing_field {fname : String} {d : List (String × PyVal)}
    (h : slookup "severity" d = none ∨ slookup "category" d = none ∨
      slookup "description" d = none) :
    ∃ k, flattenIssue fname (.dict d) = .error (.keyError k) := by
  cases h1 : slookup "severity" d with
  | none => exact ⟨"severity", flattenIssue_missing_severity h1⟩
  | some sv =>
      cases h2 : slookup "category" d with
      | none =>
          refine ⟨"category", ?_⟩
          simp [flattenIssue, pyGetDefault, exbind_ok, pyIndexV, dictIndex, h1, h2, exbind_err]
      | some cv =>
          cases h3 : slookup "description" d with
          | none =>
              refine ⟨"description", ?_⟩
              simp [flattenIssue, pyGetDefault, exbind_ok, pyIndexV, dictIndex,
                h1, h2, h3, exbind_err]
          | some dv =>
              rcases h with hh | hh | hh
              · rw [h1] at hh; exact absurd hh (by simp)
              · rw [h2] at hh; exact absurd hh (by simp)
              · rw [h3] at hh; exact absurd hh (by simp)

theorem issuesLoop_err_of_missing (fname : String) :
    ∀ (es : List PyVal) (acc : List FlatIssue) (counts : List (PyVal × Nat)),
      (∃ e ∈ es, ∃ d, e = PyVal.dict d ∧
        (slookup "severity" d = none ∨ slookup "category" d = none ∨
          slookup "description" d = none)) →
      ∃ err, issuesLoop fname es acc counts = .error err := by
  intro es
  induction es with
  | nil =>
      intro acc counts h
      obtain ⟨e, he, _⟩ := h
      exact absurd he (by simp)
  | cons e rest ih =>
      intro acc counts h
      obtain ⟨e', he', d, hed, hsev⟩ := h
      cases hstep : issueStep fname e acc counts with
      | error er => exact ⟨er, by simp [issuesLoop, hstep, exbind_err]⟩
      | ok ac =>
          obtain ⟨acc1, counts1⟩ := ac
          rcases List.mem_cons.mp he' with heq | hmem
          · exfalso
            obtain ⟨flat, hflat, _, _⟩ := issueStep_ok hstep
            rw [heq] at hed
            rw [hed] at hflat
            obtain ⟨k, hk⟩ := flattenIssue_missing_field hsev
            rw [hk] at hflat
            exact absurd hflat (by simp)
          · obtain ⟨err, herr⟩ := ih acc1 counts1 ⟨e', hmem, d, hed, hsev⟩
            exact ⟨err, by simp [issuesLoop, hstep, exbind_ok, herr]⟩

theorem filesLoop_err_of_missing :
    ∀ (rs : List FileResult) (acc : List FlatIssue) (counts : List (PyVal × Nat)),
      (∃ f ∈ rs, ∃ l, f.issues = PyVal.list l ∧
        ∃ e ∈ l, ∃ d, e = PyVal.dict d ∧
          (slookup "severity" d = none ∨ slookup "category" d = none ∨
            slookup "description" d = none)) →
      ∃ err, filesLoop rs acc counts = .error err := by
  intro rs
  induction rs with
  | nil =>
      intro acc counts h
      obtain ⟨f, hf, _⟩ := h
      exact absurd hf (by simp)
  | cons fr rest ih =>
      intro acc counts h
      obtain ⟨f, hf, l, hiss, hbad⟩ := h
      rcases List.mem_cons.mp hf with heq | hmem
      · have hit : iterElems fr.issues = .ok l := by rw [← heq, hiss]; rfl
        obtain ⟨err, herr⟩ := issuesLoop_err_of_missing fr.filename l acc counts hbad
        exact ⟨err, by simp [filesLoop, hit, exbind_ok, herr, exbind_err]⟩
      · cases hit : iterElems fr.issues with
        | error er => exact ⟨er, by simp [filesLoop, hit, exbind_err]⟩
        | ok elems =>
            cases hl : issuesLoop fr.filename elems acc counts with
            | error er => exact ⟨er, by simp [filesLoop, hit, hl, exbind_ok, exbind_err]⟩
            | ok ac =>
                obtain ⟨acc1, counts1⟩ := ac
                obtain ⟨err, herr⟩ := ih acc1 counts1 ⟨f, hmem, l, hiss, hbad⟩
                exact ⟨err, by simp [filesLoop, hit, hl, exbind_ok, herr]⟩

theorem build_review_err_of_loop {pd : List (String × PyVal)} {pr_files : List FileDiff}
    {rs : List FileResult} {fr : String} {t1 t2 : Nat} {err : PyErr}
    (h : filesLoop rs [] counts0 = .error err) :
    build_review pd pr_files rs fr t1 t2 = .error err := by
  simp [build_review, h, exbind_err]

theorem issuesLoop_ok_mem {fname : String} :
    ∀ (es : List PyVal) (acc : List FlatIssue) (counts : List (PyVal × Nat))
      {acc' : List FlatIssue} {counts' : List (PyVal × Nat)},
      issuesLoop fname es acc counts = .ok (acc', counts') →
      ∀ e ∈ es, ∃ flat, flattenIssue fname e = .ok flat ∧ flat ∈ acc' := by
  intro es
  induction es with
  | nil =>
      intro acc counts acc' counts' h e he
      exact absurd he (by simp)
  | cons e0 rest ih =>
      intro acc counts acc' counts' h e he
      simp only [issuesLoop] at h
      cases hs : issueStep fname e0 acc counts with
      | error er =>
          rw [hs] at h; rw [exbind_err] at h
          exact absurd h (by simp)
      | ok ac =>
          obtain ⟨acc1, counts1⟩ := ac
          rw [hs] at h
          rw [exbind_ok] at h
          rcases List.mem_cons.mp he with heq | hmem
          · obtain ⟨flat, hflat, hacc1, _⟩ := issueStep_ok hs
            obtain ⟨delta, hacc', _⟩ := issuesLoop_ok rest acc1 counts1 h
            refine ⟨flat, by rw [heq]; exact hflat, ?_⟩
            rw [hacc', hacc1]
            simp
          · exact ih acc1 counts1 h e hmem

theorem filesLoop_ok_mem :
    ∀ (rs : List FileResult) (acc : List FlatIssue) (counts : List (PyVal × Nat))
      {acc' : List FlatIssue} {counts' : List (PyVal × Nat)},
      filesLoop rs acc counts = .ok (acc', counts') →
      ∀ f ∈ rs, ∀ (l : List PyVal), f.issues = PyVal.list l →
        ∀ e ∈ l, ∃ flat, flattenIssue f.filename e = .ok flat ∧ flat ∈ acc' := by
  intro rs
  induction rs with
  | nil =>
      intro acc counts acc' counts' h f hf
      exact absurd hf (by simp)
  | cons fr rest ih =>
      intro acc counts acc' counts' h f hf l hl e he
      simp only [filesLoop] at h
      cases hit : iterElems fr.issues with
      | error er =>
          rw [hit] at h; rw [exbind_err] at h
          exact absurd h (by simp)
      | ok elems =>
          rw [hit] at h
          rw [exbind_ok] at h
          cases hil : issuesLoop fr.filename elems acc counts with
          | error er =>
              rw [hil] at h; rw [exbind_err] at h
              exact absurd h (by simp)
          | ok ac =>
              obtain ⟨acc1, counts1⟩ := ac
              rw [hil] at h
              rw [exbind_ok] at h
              rcases List.mem_cons.mp hf with heq | hmem
              · have hel : elems = l := by
                  rw [heq] at hl
                  rw [hl] at hit
                  simpa [iterElems] using hit.symm
                have he' : e ∈ elems := by rw [hel]; exact he
                obtain ⟨flat, hflat, hmem1⟩ :=
                  issuesLoop_ok_mem elems acc counts hil e he'
                obtain ⟨delta, hacc', _⟩ := filesLoop_ok rest acc1 counts1 h
                refine ⟨flat, by rw [heq]; exact hflat, ?_⟩
                rw [hacc']
                simp [hmem1]
              · exact ih acc1 counts1 h f hmem l hl e he

/-! Claim theorems -/

/-- Claim C1 (code bug exhibit).  Whenever both source fetches succeed,
trigger_review raises KeyError("number") while building the pr_details
argument of agent.analyze, because GitHubService.get_pr_details returns the
keys pr_number, pr_title, pr_description, ... while trigger_review indexes
the dict with "number", "title", "body", "user", "head", "base": no Review is
ever built, persisted, or returned, contradicting the claim that exactly one
completed Review is persisted and returned to the caller. -/
theorem trigger_review_always_keyerror (pr : PRMeta) (files : List FileDiff)
    (cap : Nat → CapOutcome) (sumO : SumOutcome) (postO : PostOutcome)
    (b : Bool) (t1 t2 : Nat) :
    trigger_review (.ok pr) (.ok files) cap sumO postO b t1 t2 =
      (.error (.keyError "number"), []) := rfl

/-- Claim C2 (counterexample).  An analysis result whose single issue carries
severity "critical" (reachable, since the capability output is free text and
records are not validated) yields a successfully built Review with
issues_found = 1 but high_issues + medium_issues + low_issues = 0, refuting
the claimed identity. -/
theorem issues_found_sum_cex :
    build_review pdSample [] c2rs "s" 0 1 = .ok c2review ∧
    c2review.issues_found = 1 ∧
    c2review.high_issues + c2review.medium_issues + c2review.low_issues = 0 :=
  ⟨rfl, rfl, rfl⟩

/-- Claim C2 (amended).  For every Review the aggregation of trigger_review
(review_service.py lines 64-136) successfully builds, each stored severity
count equals the exact tally of the corresponding severity over the agent
output code_quality_issues, and issues_found is the total number of stored
issues; the identity issues_found = high + medium + low additionally holds
whenever every stored issue severity lies in low/medium/high (the range the
Issue data model prescribes). -/
theorem review_severity_counts {pd : List (String × PyVal)} {pr_files : List FileDiff}
    {rs : List FileResult} {fr : String} {t1 t2 : Nat} {r : BuiltReview}
    (h : build_review pd pr_files rs fr t1 t2 = .ok r) :
    ∀ a ∈ r.agent_results,
      (r.issues_found = a.output.code_quality_issues.length
        ∧ r.high_issues = (a.output.code_quality_issues.filter (fun i =>
            keyEq i.severity (.str "high"))).length
        ∧ r.medium_issues = (a.output.code_quality_issues.filter (fun i =>
            keyEq i.severity (.str "medium"))).length
        ∧ r.low_issues = (a.output.code_quality_issues.filter (fun i =>
            keyEq i.severity (.str "low"))).length)
      ∧ ((∀ i ∈ a.output.code_quality_issues,
            i.severity = .str "low" ∨ i.severity = .str "medium" ∨
              i.severity = .str "high") →
          r.issues_found = r.high_issues + r.medium_issues + r.low_issues) := by
  obtain ⟨all, counts, hloop, hif, hhigh, hmed, hlow, hcrit, hstat, hcomp,
    a0, hares, hcqi, hsum, hvuln, hpost⟩ := build_review_ok h
  obtain ⟨delta, hdelta, hcnt⟩ := filesLoop_ok rs [] counts0 hloop
  have hall : all = delta := by simpa using hdelta
  subst hall
  intro a ha
  rw [hares] at ha
  have ha0 : a = a0 := by simpa using ha
  subst ha0
  have e1 : countsGet counts0 (.str "high") = 0 := by decide
  have e2 : countsGet counts0 (.str "medium") = 0 := by decide
  have e3 : countsGet counts0 (.str "low") = 0 := by decide
  refine ⟨⟨?_, ?_, ?_, ?_⟩, ?_⟩
  · rw [hif, hcqi]
  · rw [hhigh, hcqi, hcnt (.str "high"), e1, Nat.zero_add]
  · rw [hmed, hcqi, hcnt (.str "medium"), e2, Nat.zero_add]
  · rw [hlow, hcqi, hcnt (.str "low"), e3, Nat.zero_add]
  · intro hsevs
    rw [hcqi] at hsevs
    rw [hif, hhigh, hmed, hlow, hcnt (.str "high"), hcnt (.str "medium"),
      hcnt (.str "low"), e1, e2, e3]
    simp only [Nat.zero_add]
    exact (filter_severity_partition all hsevs).symm

/-- Claim C2 (witness).  The amended theorem applied to a concrete
successfully built Review with one low-severity issue; on it the sum identity
holds with issues_found = 1 = 0 + 0 + 1. -/
theorem review_severity_counts_witness :
    build_review pdSample [] c2okrs "s" 0 1 = .ok c2wreview ∧
    (∀ a ∈ c2wreview.agent_results,
      (c2wreview.issues_found = a.output.code_quality_issues.length
        ∧ c2wreview.high_issues = (a.output.code_quality_issues.filter (fun i =>
            keyEq i.severity (.str "high"))).length
        ∧ c2wreview.medium_issues = (a.output.code_quality_issues.filter (fun i =>
            keyEq i.severity (.str "medium"))).length
        ∧ c2wreview.low_issues = (a.output.code_quality_issues.filter (fun i =>
            keyEq i.severity (.str "low"))).length)
      ∧ ((∀ i ∈ a.output.code_quality_issues,
            i.severity = .str "low" ∨ i.severity = .str "medium" ∨
              i.severity = .str "high") →
          c2wreview.issues_found =
            c2wreview.high_issues + c2wreview.medium_issues + c2wreview.low_issues))
    ∧ c2wreview.issues_found =
        c2wreview.high_issues + c2wreview.medium_issues + c2wreview.low_issues := by
  have he : build_review pdSample [] c2okrs "s" 0 1 = .ok c2wreview := rfl
  exact ⟨he, review_severity_counts he, rfl⟩

/-- Claim C3.  For every Review the aggregation of trigger_review
successfully builds, critical_issues never exceeds high_issues, and
critical_issues is exactly the number of stored issues with severity high and
category security. -/
theorem critical_le_high {pd : List (String × PyVal)} {pr_files : List FileDiff}
    {rs : List FileResult} {fr : String} {t1 t2 : Nat} {r : BuiltReview}
    (h : build_review pd pr_files rs fr t1 t2 = .ok r) :
    r.critical_issues ≤ r.high_issues ∧
    ∀ a ∈ r.agent_results,
      r.critical_issues = (a.output.code_quality_issues.filter (fun i =>
        keyEq i.severity (.str "high") && keyEq i.category (.str "security"))).length := by
  obtain ⟨all, counts, hloop, hif, hhigh, hmed, hlow, hcrit, hstat, hcomp,
    a0, hares, hcqi, hsum, hvuln, hpost⟩ := build_review_ok h
  obtain ⟨delta, hdelta, hcnt⟩ := filesLoop_ok rs [] counts0 hloop
  have hall : all = delta := by simpa using hdelta
  subst hall
  constructor
  · have e1 : countsGet counts0 (.str "high") = 0 := by decide
    rw [hcrit, hhigh, hcnt (.str "high"), e1, Nat.zero_add]
    exact length_filter_and_le all _ _
  · intro a ha
    rw [hares] at ha
    have ha0 : a = a0 := by simpa using ha
    subst ha0
    rw [hcrit, hcqi]

/-- Claim C3 (witness).  The theorem applied to a concrete built Review with
one high-severity security issue: critical_issues = 1 ≤ 1 = high_issues. -/
theorem critical_le_high_witness :
    build_review pdSample [] c3rs "s" 0 1 = .ok c3review ∧
    (c3review.critical_issues ≤ c3review.high_issues ∧
      ∀ a ∈ c3review.agent_results,
        c3review.critical_issues = (a.output.code_quality_issues.filter (fun i =>
          keyEq i.severity (.str "high") && keyEq i.category (.str "security"))).length)
    ∧ c3review.critical_issues = 1 ∧ c3review.high_issues = 1 := by
  have he : build_review pdSample [] c3rs "s" 0 1 = .ok c3review := rfl
  exact ⟨he, critical_le_high he, rfl, rfl⟩

/-- Claim C4.  An entry whose status is removed or whose patch is absent or
empty contributes nothing to PRAnalyzerAgent.analyze_files: deleting the
entry changes neither the output results nor the list of files for which the
Analysis Capability is invoked (in particular no invocation is made for that
entry, and it never appears in the output mapping). -/
theorem analyze_files_skips_removed_and_empty (cap : Nat → CapOutcome)
    (l1 l2 : List FileDiff) (f : FileDiff)
    (hskip : f.status = "removed" ∨ f.patch = none ∨ f.patch = some "") :
    analyze_files cap (l1 ++ f :: l2) = analyze_files cap (l1 ++ l2) := by
  have hf : skipB f = true := by
    rcases hskip with hcase | hcase | hcase
    · simp [skipB, hcase]
    · simp [skipB, patchTruthy, hcase]
    · have hp : patchTruthy f.patch = false := by rw [hcase]; rfl
      simp [skipB, hp]
  exact analyze_files_go_skip hf cap l1 l2 0

/-- Claim C4 (witness).  The theorem applied to a removed file with a failing
capability trace: the run over the one-element list equals the run over the
empty list. -/
theorem analyze_files_skips_removed_and_empty_witness :
    (c4file.status = "removed" ∨ c4file.patch = none ∨ c4file.patch = some "") ∧
    analyze_files c4cap [c4file] = analyze_files c4cap [] :=
  ⟨Or.inl rfl, analyze_files_skips_removed_and_empty c4cap [] [] c4file (Or.inl rfl)⟩

/-- Claim C5.  A non-skipped file whose capability outcome yields nothing
(the call raised, returned non-JSON text, or returned JSON that is not a dict
or lacks a truthy issues entry) contributes no entry to the results of
PRAnalyzerAgent.analyze_files, and the remaining files are analyzed exactly
as if the file and its outcome were absent: deleting the file and its slot in
the capability trace leaves the results unchanged.  The stage is a total
function (the except Exception handler of lines 63/82-83 is embedded in
analyze_files_go) so it never raises and always returns a possibly empty
aggregate. -/
theorem analyze_files_isolates_failures (cap : Nat → CapOutcome)
    (l1 l2 : List FileDiff) (f : FileDiff) (hns : skipB f = false)
    (hbad : capYieldsNothing (cap (nonSkippedCount l1)) = true) :
    (analyze_files cap (l1 ++ f :: l2)).results =
      (analyze_files (dropNth (nonSkippedCount l1) cap) (l1 ++ l2)).results := by
  have h0 : capYieldsNothing (cap (0 + nonSkippedCount l1)) = true := by
    simpa using hbad
  simpa [analyze_files] using analyze_files_go_isolate hns cap l2 l1 0 h0

/-- Claim C5 (witness).  The theorem applied to a concrete trace in which the
first response is non-JSON: the failing file bad.py contributes nothing while
ok.py is still analyzed. -/
theorem analyze_files_isolates_failures_witness :
    skipB c5bad = false ∧
    capYieldsNothing (c5cap (nonSkippedCount [])) = true ∧
    (analyze_files c5cap [c5bad, c5good]).results =
      (analyze_files (dropNth (nonSkippedCount []) c5cap) [c5good]).results :=
  ⟨rfl, rfl, analyze_files_isolates_failures c5cap [] [c5good] c5bad rfl rfl⟩

/-- Claim C6 (counterexample).  An issues array containing a record with only
a line field is not dropped with a warning: the aggregation of trigger_review
(review_service.py line 72 reads issue["severity"]) raises KeyError and the
build hard-fails, refuting the claim that records failing shape validation
are dropped without a hard failure.  No shape validation exists in
pr_analyzer_agent.py either; its lines 72-80 only catch whole-response JSON
decode errors. -/
theorem invalid_issue_record_cex :
    build_review pdSample [] c6rs "s" 0 1 = .error (.keyError "severity") := rfl

/-- Claim C6 (amended).  Issue records are not individually validated, in two
directions.  First: if any file result holds an issues list containing a dict
record lacking the severity, the category, or the description field, the
aggregation of trigger_review hard-fails with an exception (a KeyError from
lines 72-74) instead of dropping the record with a warning.  Second: whenever
the aggregation does succeed, every record of every issues list — including
records whose severity lies outside low/medium/high — is flattened and kept
in the stored agent output code_quality_issues (and is therefore counted,
since issues_found is the length of that list): no record is ever dropped. -/
theorem invalid_issue_record_raises :
    (∀ (pd : List (String × PyVal)) (pr_files : List FileDiff)
        (rs : List FileResult) (fr : String) (t1 t2 : Nat),
        (∃ f ∈ rs, ∃ l, f.issues = PyVal.list l ∧
          ∃ e ∈ l, ∃ d, e = PyVal.dict d ∧
            (slookup "severity" d = none ∨ slookup "category" d = none ∨
              slookup "description" d = none)) →
        ∃ err, build_review pd pr_files rs fr t1 t2 = .error err)
    ∧ (∀ (pd : List (String × PyVal)) (pr_files : List FileDiff)
        (rs : List FileResult) (fr : String) (t1 t2 : Nat) (r : BuiltReview),
        build_review pd pr_files rs fr t1 t2 = .ok r →
        ∀ f ∈ rs, ∀ (l : List PyVal), f.issues = PyVal.list l →
          ∀ e ∈ l, ∃ flat, flattenIssue f.filename e = .ok flat ∧
            ∀ a ∈ r.agent_results, flat ∈ a.output.code_quality_issues) := by
  constructor
  · intro pd pr_files rs fr t1 t2 h
    obtain ⟨err, herr⟩ := filesLoop_err_of_missing rs [] counts0 h
    exact ⟨err, build_review_err_of_loop herr⟩
  · intro pd pr_files rs fr t1 t2 r h f hf l hl e he
    obtain ⟨all, counts, hloop, hif, hhigh, hmed, hlow, hcrit, hstat, hcomp,
      a0, hares, hcqi, hsum, hvuln, hpost⟩ := build_review_ok h
    obtain ⟨flat, hflat, hmem⟩ := filesLoop_ok_mem rs [] counts0 hloop f hf l hl e he
    refine ⟨flat, hflat, ?_⟩
    intro a ha
    rw [hares] at ha
    have ha0 : a = a0 := by simpa using ha
    subst ha0
    rw [hcqi]
    exact hmem

/-- Claim C6 (witness).  The amended theorem applied concretely in all its
directions: records missing severity (c6wrs), category (c6mcat), or
description (c6mdesc) each hard-fail the build, while the well-formed record
with out-of-range severity "critical" (c6outrs) is kept in the successfully
built Review and counted in issues_found. -/
theorem invalid_issue_record_raises_witness :
    (∃ err, build_review pdSample [] c6wrs "s" 0 1 = .error err)
    ∧ (∃ err, build_review pdSample [] c6mcat "s" 0 1 = .error err)
    ∧ (∃ err, build_review pdSample [] c6mdesc "s" 0 1 = .error err)
    ∧ (∃ flat, flattenIssue "e.py" (.dict [("line", .int 9),
        ("severity", .str "critical"), ("category", .str "bug"),
        ("description", .str "x")]) = .ok flat ∧
        ∀ a ∈ c6outreview.agent_results, flat ∈ a.output.code_quality_issues)
    ∧ c6outreview.issues_found = 1 := by
  have he : build_review pdSample [] c6outrs "s" 0 1 = .ok c6outreview := rfl
  refine ⟨?_, ?_, ?_, ?_, rfl⟩
  · refine invalid_issue_record_raises.1 pdSample [] c6wrs "s" 0 1
      ⟨⟨"b.py", .list [.dict [("category", .str "bug")]]⟩, List.Mem.head _,
        [.dict [("category", .str "bug")]], rfl,
        .dict [("category", .str "bug")], List.Mem.head _,
        [("category", .str "bug")], rfl, Or.inl rfl⟩
  · refine invalid_issue_record_raises.1 pdSample [] c6mcat "s" 0 1
      ⟨⟨"c.py", .list [.dict [("line", .int 1), ("severity", .str "low"),
          ("description", .str "d")]]⟩, List.Mem.head _,
        [.dict [("line", .int 1), ("severity", .str "low"),
          ("description", .str "d")]], rfl,
        .dict [("line", .int 1), ("severity", .str "low"),
          ("description", .str "d")], List.Mem.head _,
        [("line", .int 1), ("severity", .str "low"), ("description", .str "d")],
        rfl, Or.inr (Or.inl rfl)⟩
  · refine invalid_issue_record_raises.1 pdSample [] c6mdesc "s" 0 1
      ⟨⟨"d.py", .list [.dict [("severity", .str "low"), ("category", .str "bug")]]⟩,
        List.Mem.head _,
        [.dict [("severity", .str "low"), ("category", .str "bug")]], rfl,
        .dict [("severity", .str "low"), ("category", .str "bug")],
        List.Mem.head _,
        [("severity", .str "low"), ("category", .str "bug")], rfl,
        Or.inr (Or.inr rfl)⟩
  · exact invalid_issue_record_raises.2 pdSample [] c6outrs "s" 0 1 c6outreview he
      ⟨"e.py", .list [.dict [("line", .int 9), ("severity", .str "critical"),
        ("category", .str "bug"), ("description", .str "x")]]⟩
      (List.Mem.head _)
      [.dict [("line", .int 9), ("severity", .str "critical"),
        ("category", .str "bug"), ("description", .str "x")]] rfl
      (.dict [("line", .int 9), ("severity", .str "critical"),
        ("category", .str "bug"), ("description", .str "x")])
      (List.Mem.head _)

/-- Claim C7.  A failing PR-details fetch, or a failing changed-files fetch,
aborts trigger_review with the wrapped fetch exception (the realization of
SourceFetchFailed: the Failed-to-fetch message of github_service.py) and no
store call of any kind is made, so no Review is persisted for that call. -/
theorem trigger_review_fetch_failure_aborts :
    (∀ (e : String) (fF : FetchOutcome (List FileDiff)) (cap : Nat → CapOutcome)
        (sumO : SumOutcome) (postO : PostOutcome) (b : Bool) (t1 t2 : Nat),
        trigger_review (.githubErr e) fF cap sumO postO b t1 t2 =
          (.error (.exception ("Failed to fetch PR details: " ++ e)), []))
    ∧ (∀ (pr : PRMeta) (e : String) (cap : Nat → CapOutcome)
        (sumO : SumOutcome) (postO : PostOutcome) (b : Bool) (t1 t2 : Nat),
        trigger_review (.ok pr) (.githubErr e) cap sumO postO b t1 t2 =
          (.error (.exception ("Failed to fetch PR files: " ++ e)), [])) := by
  constructor
  · intro e fF cap sumO postO b t1 t2; rfl
  · intro pr e cap sumO postO b t1 t2; rfl

/-- Claim C8.  On an empty per-file result list, summarize_review returns the
fixed no-major-issues message and performs zero Analysis Capability
invocations, whatever the summary capability would have returned. -/
theorem summarize_review_empty_fixed (o : SumOutcome) :
    summarize_review o [] = ("No major issues found in the analyzed files.", 0) := rfl

/-- Claim C9 (code bug exhibit).  The post-back step can never succeed:
review_service.py line 163 calls github_service.post_comment, but GitHubService
defines no method of that name (its methods are gitHubServiceMethods, which
include post_review_comment instead), so the attribute lookup raises
AttributeError inside the try block, the except swallows it, and for every
post outcome post_review_to_github returns the review unchanged with no save
write; posted_to_github can never become true and no comment id is ever
recorded, contradicting the claim's success branch.  (The failure branch of
the claim does hold: nothing surfaces and nothing is retried.  Independently,
trigger_review never even reaches this step; see claim C1.) -/
theorem post_review_never_succeeds :
    ("post_comment" ∉ gitHubServiceMethods)
    ∧ ∀ (postO : PostOutcome) (review : BuiltReview),
        post_review_to_github postO review = (review, []) := by
  constructor
  · decide
  · intro postO review; rfl

/-- Claim C10.  For every Review the aggregation of trigger_review
successfully builds, the stored agent-output summary is the final_review
narrative truncated to its first 500 characters (review_service.py line 81),
so whenever the narrative exceeds 500 characters the stored summary is
strictly shorter than, hence never equal to, the full narrative. -/
theorem summary_truncated_500 {pd : List (String × PyVal)} {pr_files : List FileDiff}
    {rs : List FileResult} {fr : String} {t1 t2 : Nat} {r : BuiltReview}
    (h : build_review pd pr_files rs fr t1 t2 = .ok r) :
    ∀ a ∈ r.agent_results,
      a.output.summary = pySlice fr 500 ∧
      (500 < fr.length → a.output.summary.length < fr.length) := by
  obtain ⟨all, counts, hloop, hif, hhigh, hmed, hlow, hcrit, hstat, hcomp,
    a0, hares, hcqi, hsum, hvuln, hpost⟩ := build_review_ok h
  intro a ha
  rw [hares] at ha
  have ha0 : a = a0 := by simpa using ha
  subst ha0
  refine ⟨hsum, fun hlen => ?_⟩
  rw [hsum]
  have hlen2 : (pySlice fr 500).length = min 500 fr.length := by
    cases fr with
    | mk data => simp [pySlice, String.length, List.length_take]
  rw [hlen2]
  omega

/-- Claim C10 (witness).  The theorem applied to a concrete built Review with
a five-character narrative. -/
theorem summary_truncated_500_witness :
    build_review pdSample [] [] "short" 0 1 = .ok c10review ∧
    ∀ a ∈ c10review.agent_results,
      a.output.summary = pySlice "short" 500 ∧
      (500 < String.length "short" → a.output.summary.length < String.length "short") := by
  have he : build_review pdSample [] [] "short" 0 1 = .ok c10review := rfl
  exact ⟨he, summary_truncated_500 he⟩
